import Mathlib

/-!
Verification development for the Aphelios build-optimizer
(`Damage.py`): a shallow embedding of its stat aggregation, physical
damage mitigation, combat simulation loop and result sorting, together
with theorems settling the specification claims.

Machine floating point arithmetic is modelled by exact rationals (`ℚ`);
Python `int` is modelled by `ℤ`/`ℕ`; Python dicts keyed by strings are
modelled as total functions `String → ℚ` (lookup of an absent key with
`.get(k, 0.0)` and the preset zero entries coincide in this model).
-/

set_option maxRecDepth 1000000

namespace Aphelios

/-! ### Item data model

An item (an entry of the `ITEMS` table) maps stat names to values that
are floats, fixed-size numeric tuples, booleans, or the `name` string.
-/

/-- A stat value occurring in an `ITEMS` entry. -/
inductive StatValue where
  | num (q : ℚ)
  | tup (l : List ℚ)
  | flag (b : Bool)
  | str (s : String)
deriving DecidableEq

/-- One item: a stat-name/value association list in dict insertion order. -/
abbrev Item := List (String × StatValue)

/-- Python `float(value)` on the values that coerce without raising
(`float` on an `int`/`float`/`bool`; on a tuple or non-numeric string it
raises, modelled by `none`). -/
def pyFloat : StatValue → Option ℚ
  | .num q => some q
  | .flag b => some (if b then 1 else 0)
  | _ => none

/-- `stats[stat] = stats.get(stat, 0.0) + q` on the stats dict. -/
def addStat (f : String → ℚ) (k : String) (q : ℚ) : String → ℚ :=
  fun k' => if k' = k then f k' + q else f k'

/-- `stats[stat] = q` on the stats dict. -/
def setStat (f : String → ℚ) (k : String) (q : ℚ) : String → ℚ :=
  fun k' => if k' = k then q else f k'

/-- The preset stats dict built at the top of `_calculate_base_stats`
(base champion stats; all dynamic keys default to `0`, matching
`stats.get(stat, 0.0)`). -/
def baseStats : String → ℚ := fun k =>
  if k = "AD" then 94.1
  else if k = "AS" then 0.64
  else if k = "Crit" then 0.0
  else if k = "CritDmg" then 1.75
  else if k = "Lethality" then 0.0
  else if k = "ArmorPen" then 0.0
  else if k = "MagicPen" then 0.0
  else if k = "OnHit" then 0.0
  else if k = "LS" then 0.0
  else if k = "Omnivamp" then 0.0
  else if k = "BonusAD" then 0.0
  else if k = "AbilityHaste" then 0.0
  else if k = "Bonus Range" then 0.0
  else if k = "Health" then 2334
  else if k = "Armor" then 97.4
  else if k = "MR" then 52.1
  else if k = "Mana" then 1062
  else if k = "MoveSpeed" then 325
  else 0

/-- The mutable state of the aggregation loop in `_calculate_base_stats`:
the stats dict plus the `has_infinity_edge` flag and the `bonus_ad`
accumulator. -/
structure AggState where
  stats : String → ℚ
  hasIE : Bool
  bonusAD : ℚ

/-- One iteration of the inner `for stat, value in item.items()` loop of
`_calculate_base_stats`.  Transliterated branch by branch; note that in
the source the `ArmorPen`/`Armor Pen` branch has no `continue`, so after
taking the maximum the value also falls through to the generic numeric
branch and is summed under its own key.  (Where the source would raise a
`TypeError` — `float()` of a tuple/string under a special key — this
model leaves the state unchanged; the theorems only exercise well-typed
inputs.) -/
def stepStat (s : AggState) (p : String × StatValue) : AggState :=
  let stat := p.1
  let value := p.2
  if stat = "name" then
    match value with
    | .str n => if n = "Infinity Edge" then { s with hasIE := true } else s
    | _ => s
  else if stat = "Crit Chance" then
    match pyFloat value with
    | some q => { s with stats := addStat s.stats "Crit" q }
    | none => s
  else if stat = "AD" then
    match pyFloat value with
    | some q => { s with bonusAD := s.bonusAD + q }
    | none => s
  else
    -- `if stat in ["ArmorPen", "Armor Pen"]` — NO continue: falls through below
    let s :=
      if stat = "ArmorPen" ∨ stat = "Armor Pen" then
        match pyFloat value with
        | some q => { s with stats := setStat s.stats "ArmorPen" (max (s.stats "ArmorPen") q) }
        | none => s
      else s
    if stat = "Lethality" then
      match pyFloat value with
      | some q => { s with stats := addStat s.stats "Lethality" q }
      | none => s
    else
      match value with
      | .tup l =>
          -- mean of the tuple (the catalog has no empty tuples; an empty one
          -- would raise `ZeroDivisionError` in the source)
          if l.isEmpty then s
          else { s with stats := addStat s.stats stat (l.sum / (l.length : ℚ)) }
      | .num q => { s with stats := addStat s.stats stat q }
      | .flag b =>
          -- Python `isinstance(True, int)` holds, so booleans reach the
          -- numeric branch first and add `float(bool)`
          { s with stats := addStat s.stats stat (if b then 1 else 0) }
      | .str _ => s  -- "Unexpected type" warning: logged and skipped

/-- The aggregation fold of `_calculate_base_stats` over the item list
(outer loop over items, inner loop over each item's stats). -/
def aggFold (items : List Item) : AggState :=
  items.foldl (fun acc it => it.foldl stepStat acc) ⟨baseStats, false, 0⟩

/-- `_calculate_base_stats(items_tuple)`: aggregation fold followed by the
finalization steps (BonusAD write-back, +68 level-18 passive AD, crit cap,
Infinity Edge crit-damage rule). -/
def calculateBaseStats (items : List Item) : String → ℚ :=
  let a := aggFold items
  let st := setStat a.stats "BonusAD" a.bonusAD
  let st := setStat st "AD" (st "AD" + a.bonusAD)
  let st := setStat st "AD" (st "AD" + 68)
  let st := setStat st "Crit" (min (st "Crit") 1)
  if a.hasIE ∧ 0.6 ≤ st "Crit" then setStat st "CritDmg" (st "CritDmg" + 0.4) else st

/-! Normal-form view of one `stepStat` update for keys outside the
`ArmorPen`/`Armor Pen` pair: the update adds one contribution to one
stats key, may raise the Infinity-Edge flag, and may add to the bonus-AD
accumulator.  Used to prove that such updates commute. -/

/-- The stats key a non-armor-pen update lands on. -/
def aggKey (k : String) : String :=
  if k = "Crit Chance" then "Crit" else k

/-- The numeric contribution a non-armor-pen update adds under `aggKey k`
(0 whenever the source skips the value or accumulates it elsewhere). -/
def aggVal (k : String) (v : StatValue) : ℚ :=
  if k = "name" ∨ k = "AD" then 0
  else if k = "Crit Chance" ∨ k = "Lethality" then (pyFloat v).getD 0
  else
    match v with
    | .num q => q
    | .flag b => if b then 1 else 0
    | .tup l => if l.isEmpty then 0 else l.sum / (l.length : ℚ)
    | .str _ => 0

/-- The bonus-AD contribution of an update. -/
def adVal (k : String) (v : StatValue) : ℚ :=
  if k = "AD" then (pyFloat v).getD 0 else 0

/-- Whether an update raises the Infinity-Edge flag. -/
def ieVal (k : String) (v : StatValue) : Bool :=
  k = "name" && (match v with | .str n => n = "Infinity Edge" | _ => false)

/-! ### Physical damage mitigation -/

/-- `apply_physical_mitigation(damage, enemy_armor, armor_pen, lethality)`:
lethality converts to flat penetration at `0.6 + 0.4 = 1.0` per point,
flat pen is subtracted from armor floored at 0, the remainder is reduced
by the percent-pen fraction floored at 0, and the sign of the resulting
armor selects the mitigation formula. -/
def apply_physical_mitigation (damage enemy_armor : ℚ) (armor_pen : ℚ := 0)
    (lethality : ℚ := 0) : ℚ :=
  let flat_pen := lethality * (0.6 + 0.4)
  let armor_after_flat := max 0 (enemy_armor - flat_pen)
  let final_armor := max 0 (armor_after_flat * (1 - armor_pen))
  if 0 ≤ final_armor then damage * (100 / (100 + final_armor))
  else damage * (2 - 100 / (100 - final_armor))

/-! ### Combat simulator

`ApheliosSimulator` state and tick operations.  The stochastic
`random.random()` draws are modelled by an oracle stream
`oracle : ℕ → ℚ` together with a draw index carried in the state, so
every operation is a deterministic function of the state and the oracle.
-/

/-- The mutable simulator state (`__init__`, lines 291–306).  The source
also stores `main_hand`/`off_hand` weapon objects; they always equal the
first two entries of the queue and are kept here as name fields.
`crescendum_return_times` and `active_marks` are never read nor written
after `__init__` and are omitted. -/
structure SimState where
  weaponQueue : List String
  mainHand : String
  offHand : String
  stats : String → ℚ
  enemyArmor : ℚ
  enemyHealth : ℚ
  time : ℚ
  abilityCooldown : ℚ
  weaponAmmo : String → ℤ
  chakramStacks : ℤ
  activeChakrams : Finset ℚ
  rngIdx : ℕ

/-- The five weapon names in rotation order. -/
def weaponNames : List String :=
  ["Calibrum", "Severum", "Gravitum", "Infernum", "Crescendum"]

/-- `base_damage_mod[0]` of each `WEAPONS` entry (basic-attack
coefficient); only the five weapon names ever occur. -/
def baseDamageMod0 (w : String) : ℚ :=
  if w = "Calibrum" then 1.0
  else if w = "Severum" then 0.9
  else if w = "Gravitum" then 1.1
  else if w = "Infernum" then 0.85
  else if w = "Crescendum" then 0.5
  else 0

/-- `base_damage_mod[1]` of each `WEAPONS` entry (ability coefficient). -/
def baseDamageMod1 (w : String) : ℚ :=
  if w = "Calibrum" then 0.2
  else if w = "Severum" then 0.0
  else if w = "Gravitum" then 0.0
  else if w = "Infernum" then 0.15
  else if w = "Crescendum" then 0.02
  else 0

/-- `moonlight` of each `WEAPONS` entry: every weapon has 50. -/
def moonlight (_w : String) : ℚ := 50

/-- Python `int(x)` on a rational: truncation toward zero. -/
def pyInt (x : ℚ) : ℤ := if 0 ≤ x then ⌊x⌋ else ⌈x⌉

/-- `rotate_weapon` (lines 489–504): advance time by the 1 s assembly
delay, push the ability-ready timestamp to at least 1.5 s past the new
time, cycle the queue front to back, refresh main/off hand, and decay the
chakram stacks by the 0.7 retention factor when the weapon rotated away
is Crescendum.  (The queue always holds the five weapons; the impossible
empty-queue case leaves the queue untouched.) -/
def rotate_weapon (s : SimState) : SimState :=
  let time1 := s.time + 1
  let cd1 := max s.abilityCooldown (time1 + 1.5)
  match s.weaponQueue with
  | [] => { s with time := time1, abilityCooldown := cd1 }
  | exhausted :: rest =>
    let q := rest ++ [exhausted]
    { s with time := time1, abilityCooldown := cd1, weaponQueue := q,
             mainHand := q.headD "", offHand := (q.drop 1).headD "",
             chakramStacks :=
               if exhausted = "Crescendum" then pyInt ((s.chakramStacks : ℚ) * 0.7)
               else s.chakramStacks }

/-- `use_ammo(amount)` (lines 485–488): decrement the main-hand ammo and
rotate when it reaches 0 or below (the post-decrement lookup at the main
hand equals the old value minus `amount`). -/
def use_ammo (s : SimState) (amount : ℤ) : SimState :=
  if s.weaponAmmo s.mainHand - amount ≤ 0 then
    rotate_weapon { s with
      weaponAmmo := fun w => if w = s.mainHand then s.weaponAmmo w - amount
                             else s.weaponAmmo w }
  else
    { s with
      weaponAmmo := fun w => if w = s.mainHand then s.weaponAmmo w - amount
                             else s.weaponAmmo w }

/-- The ammo guard `if self.weapon_ammo[self.main_hand.name] <= 0:
self.rotate_weapon()` that opens the loop body (line 381),
`simulate_attack` (line 402) and `simulate_ability` (line 449). -/
def ensureAmmo (s : SimState) : SimState :=
  if s.weaponAmmo s.mainHand ≤ 0 then rotate_weapon s else s

/-- `total_ad = base_ad + bonus_ad + 68` (lines 407–409 and 454). -/
def attackTotalAD (s : SimState) : ℚ := 94.1 + s.stats "BonusAD" + 68

/-- The attack damage after the stochastic crit roll and the weapon's
basic-attack coefficient (lines 412–421); the crit draw reads the oracle
at the state's current draw position.  The local
`attack_speed = min(2.5, ...)` of line 411 is computed and never read and
is therefore not part of the result. -/
def attackDamage1 (oracle : ℕ → ℚ) (s : SimState) : ℚ :=
  (if oracle s.rngIdx < s.stats "Crit" then attackTotalAD s * s.stats "CritDmg"
   else attackTotalAD s) * baseDamageMod0 s.mainHand

/-- The attack damage after the weapon-specific on-hit additions
(lines 423–430): Calibrum adds a 15 % AD mark, Infernum a 75 % AD splash;
Severum's on-hit touches only the lifesteal stat, not the damage. -/
def attackDamage (oracle : ℕ → ℚ) (s : SimState) : ℚ :=
  if s.mainHand = "Calibrum" then attackDamage1 oracle s + attackTotalAD s * 0.15
  else if s.mainHand = "Infernum" then attackDamage1 oracle s + attackTotalAD s * 0.75
  else attackDamage1 oracle s

/-- The state change of the crit draw plus the Severum on-hit lifesteal
credit `self.stats["LS"] += damage * 0.03` (lines 414 and 426–427). -/
def attackEffects (oracle : ℕ → ℚ) (s : SimState) : SimState :=
  if s.mainHand = "Severum" then
    { s with rngIdx := s.rngIdx + 1,
             stats := addStat s.stats "LS" (attackDamage1 oracle s * 0.03) }
  else { s with rngIdx := s.rngIdx + 1 }

/-- The chakram stacking branch of `simulate_attack` (lines 432–437):
with Crescendum main-hand the stacks drop by 3 floored at 0 (the bonus
`base_damage = total_ad * (0.1385 * self.chakram_stacks)` computed in
line 433 is a dead store — the local is never read again); with
Crescendum off-hand a fresh draw gains one stack capped at 20 with
probability 0.65. -/
def attackStacks (oracle : ℕ → ℚ) (s : SimState) : SimState :=
  if s.mainHand = "Crescendum" then
    { s with chakramStacks := max 0 (s.chakramStacks - 3) }
  else if s.offHand = "Crescendum" then
    if oracle s.rngIdx < 0.65 then
      { s with rngIdx := s.rngIdx + 1, chakramStacks := min 20 (s.chakramStacks + 1) }
    else { s with rngIdx := s.rngIdx + 1 }
  else s

/-- `simulate_attack` (lines 401–446): ammo guard, spend 1 ammo, damage
with stochastic crit and on-hit effects, chakram stacking branch, then
armor mitigation of the damage. -/
def simulate_attack (oracle : ℕ → ℚ) (s : SimState) : ℚ × SimState :=
  let s2 := use_ammo (ensureAmmo s) 1
  let s5 := attackStacks oracle (attackEffects oracle s2)
  (apply_physical_mitigation (attackDamage oracle s2) s5.enemyArmor
      (s5.stats "ArmorPen") (s5.stats "Lethality"), s5)

/-- The raw ability damage (lines 454–470): AD times the weapon's ability
coefficient with the weapon-specific amplifications (Calibrum execute
1.10x, Severum lifesteal boost 1.25x, Infernum splash 1.4x times the
additional 1.25x AOE factor). -/
def abilityRaw (s : SimState) : ℚ :=
  let raw0 := attackTotalAD s * baseDamageMod1 s.mainHand
  if s.mainHand = "Calibrum" then raw0 * (1 + 0.10)
  else if s.mainHand = "Severum" then raw0 * (1 + 0.25)
  else if s.mainHand = "Infernum" then raw0 * (1 + 0.4) * 1.25
  else raw0

/-- Severum's ability lifesteal credit
`self.stats["LS"] += raw_ability_damage * 0.03` (line 466). -/
def abilityEffects (s : SimState) : SimState :=
  if s.mainHand = "Severum" then
    { s with stats := addStat s.stats "LS" (abilityRaw s * 0.03) }
  else s

/-- The timed-chakram insertion (lines 471–472): with Crescendum
main-hand, add an effect expiring 5 s in the future. -/
def abilityChakra (s : SimState) : SimState :=
  if s.mainHand = "Crescendum" then
    { s with activeChakrams := insert (s.time + 5) s.activeChakrams }
  else s

/-- The unconditional stack recomputation (line 474):
`self.chakram_stacks = len([t for t in self.active_chakrams if t > self.time])`. -/
def recomputeStacks (s : SimState) : SimState :=
  { s with chakramStacks := ((s.activeChakrams.filter (fun t => s.time < t)).card : ℤ) }

/-- `simulate_ability` (lines 448–483): ammo guard, spend 10 ammo, raw
ability damage with amplifications, Crescendum chakram insertion, the
unconditional stack recomputation, then armor mitigation. -/
def simulate_ability (s : SimState) : ℚ × SimState :=
  let s2 := use_ammo (ensureAmmo s) 10
  let s5 := recomputeStacks (abilityChakra (abilityEffects s2))
  (apply_physical_mitigation (abilityRaw s2) s5.enemyArmor
      (s5.stats "ArmorPen") (s5.stats "Lethality"), s5)

/-- The ability sequence inside the `calculate_dps` loop (lines 392–394):
cast the ability, then set the cooldown reference to the current time
plus the cast time and advance time by the cast time. -/
def abilityBlock (s : SimState) : ℚ × SimState :=
  let r := simulate_ability s
  let s1 := { r.2 with abilityCooldown := r.2.time + 0.5 }
  let s2 := { s1 with time := s1.time + 0.5 }
  (r.1, s2)

/-- The per-iteration observation points of the `calculate_dps` loop:
the state after the loop-head rotation check, after the attack tick plus
time advance, and after the optional ability block (equal to the
post-attack state when no ability fires). -/
structure IterObs where
  afterRotate : SimState
  afterAttack : SimState
  afterAbility : SimState

/-- The state after the attack tick plus the clock advance of
lines 385–389: attack on the (already ammo-checked) state, then
`self.time += 1/attack_speed` with `attack_speed = min(3, BASE_AS * (1 +
stats.get("AS", 0)))`. -/
def afterAttack (oracle : ℕ → ℚ) (s1 : SimState) : SimState :=
  let atk := (simulate_attack oracle s1).2
  { atk with time := atk.time + 1 / min 3 (0.64 * (1 + s1.stats "AS")) }

/-- The ability-cast condition of line 391:
`self.time - self.ability_cooldown >= ABILITY_COOLDOWN and
self.main_hand.moonlight >= 10`. -/
abbrev abilityFires (s2 : SimState) : Prop :=
  3 ≤ s2.time - s2.abilityCooldown ∧ 10 ≤ moonlight s2.mainHand

/-- One iteration of the `while self.time < duration` loop body
(lines 381–394): ammo guard, attack tick plus clock advance, then the
optional ability block.  Returns the damage dealt this iteration, the
successor state, and the three observation points. -/
def loopIter (oracle : ℕ → ℚ) (s : SimState) : ℚ × SimState × IterObs :=
  let s1 := ensureAmmo s
  let atk := simulate_attack oracle s1
  let s2 := { atk.2 with time := atk.2.time + 1 / min 3 (0.64 * (1 + s1.stats "AS")) }
  if 3 ≤ s2.time - s2.abilityCooldown ∧ 10 ≤ moonlight s2.mainHand then
    let ab := abilityBlock s2
    (atk.1 + ab.1, ab.2, ⟨s1, s2, ab.2⟩)
  else
    (atk.1, s2, ⟨s1, s2, s2⟩)

/-- The `while self.time < duration` loop of `calculate_dps`
(lines 380–394), written with explicit fuel (the source loop is
unbounded; all theorems either hold for every fuel or use fuel large
enough for the loop to exit by its own condition).  Returns the
accumulated damage, the final state and the per-iteration observations. -/
def dpsLoop (oracle : ℕ → ℚ) (duration : ℚ) :
    ℕ → SimState → ℚ → ℚ × SimState × List IterObs
  | 0, s, total => (total, s, [])
  | Nat.succ fuel, s, total =>
    if s.time < duration then
      let it := loopIter oracle s
      let rest := dpsLoop oracle duration fuel it.2.1 (total + it.1)
      (rest.1, rest.2.1, it.2.2 :: rest.2.2)
    else (total, s, [])

/-- `calculate_dps(duration)` (lines 377–399): run the loop, force a
trailing rotation when every weapon is simultaneously out of ammo, and
return `total_damage / duration if duration > 0 else 0` together with the
final state and the observation trace. -/
def calculate_dps (oracle : ℕ → ℚ) (duration : ℚ) (fuel : ℕ) (s : SimState) :
    ℚ × SimState × List IterObs :=
  let r := dpsLoop oracle duration fuel s 0
  let s1 := if weaponNames.all (fun w => decide (r.2.1.weaponAmmo w ≤ 0)) then rotate_weapon r.2.1 else r.2.1
  ((if 0 < duration then r.1 / duration else 0), s1, r.2.2)

/-- The fresh simulator state built by `__init__`: fixed starting queue,
aggregated stats, full 50 ammo per weapon, zero stacks, zero time.
(The source resolves item names through the static `ITEMS` table first;
here the already-resolved stat lists are passed in.) -/
def initState (item_stats : List Item) (enemy_armor enemy_health : ℚ) : SimState where
  weaponQueue := weaponNames
  mainHand := "Calibrum"
  offHand := "Severum"
  stats := calculateBaseStats item_stats
  enemyArmor := enemy_armor
  enemyHealth := enemy_health
  time := 0
  abilityCooldown := 0
  weaponAmmo := fun _ => 50
  chakramStacks := 0
  activeChakrams := ∅
  rngIdx := 0

/-- The weapon whose ammo an attack tick consumes: the main hand after
`simulate_attack`'s own entry rotation check. -/
def attackTarget (s : SimState) : String :=
  (ensureAmmo s).mainHand

/-- Number of basic attacks a run performed with weapon `w`, read off the
observation trace (one attack per loop iteration, against the main hand
resolved from the post-head-rotation state). -/
def attackCount (trace : List IterObs) (w : String) : ℕ :=
  (trace.filter (fun ob => attackTarget ob.afterRotate = w)).length

/-! ### Build evaluator result and search-driver sort -/

/-- The 9-tuple returned by `simulate_build` per combination:
`(combo, total_score, dps, damage_synergy, health_scaling,
armor_mr_rating, mobility_factor, life_steal_rating, omnivamp_rating)`. -/
structure ScoredResult where
  combo : List String
  score : ℚ
  dps : ℚ
  synergy : ℚ
  healthScaling : ℚ
  armorMrRating : ℚ
  mobilityFactor : ℚ
  lifeStealRating : ℚ
  omnivampRating : ℚ

/-- The sort key comparison of `optimize_aphelios_build` (line 584):
`sorted(all_results, key=lambda x: (-x[1], -x[2]))`, i.e. ascending
lexicographic order on `(-score, -dps)`. -/
def resultLE (a b : ScoredResult) : Bool :=
  decide (-a.score < -b.score ∨ (-a.score = -b.score ∧ -a.dps ≤ -b.dps))

/-- The terminal global sort of `optimize_aphelios_build` over the
collected worker results (collection order is non-deterministic, so the
input list is arbitrary). -/
def sortResults (l : List ScoredResult) : List ScoredResult :=
  l.mergeSort resultLE

/-! ### Predicates and concrete inputs used by the claim theorems -/

/-- The chakram stack counter is within its documented 0–20 bounds. -/
abbrev stacksOk (s : SimState) : Prop :=
  0 ≤ s.chakramStacks ∧ s.chakramStacks ≤ 20

/-- Inductive invariant of a simulation run: the stack counter is in
bounds, every pending chakram expiry lies at most 4.5 s past the
ability-ready timestamp, and distinct pending expiries are at least
3.5 s apart (casts are at least 3.5 s apart, so their 5 s expiries are
too).  All three are established at the fresh state and preserved by
every tick operation. -/
abbrev ChakraInv (s : SimState) : Prop :=
  stacksOk s
    ∧ (∀ t ∈ s.activeChakrams, t ≤ s.abilityCooldown + 4.5)
    ∧ (∀ t1 ∈ s.activeChakrams, ∀ t2 ∈ s.activeChakrams, t1 ≠ t2 → 3.5 ≤ |t1 - t2|)

/-- All observation components of one loop iteration have in-bounds
stacks. -/
abbrev obsOk (ob : IterObs) : Prop :=
  stacksOk ob.afterRotate ∧ stacksOk ob.afterAttack ∧ stacksOk ob.afterAbility

/-- No stat key of any item is a percent-armor-pen key (the
`ArmorPen`/`Armor Pen` accumulation is the one order-sensitive rule). -/
abbrev noArmorPenKeys (l : List Item) : Prop :=
  ∀ it ∈ l, ∀ p ∈ it, p.1 ≠ "ArmorPen" ∧ p.1 ≠ "Armor Pen"

/-- Every value under the special numeric keys coerces with `float()`
(the source would raise a `TypeError` otherwise, which the embedding
does not model). -/
abbrev wellTypedItems (l : List Item) : Prop :=
  ∀ it ∈ l, ∀ p ∈ it,
    (p.1 = "Crit Chance" ∨ p.1 = "AD" ∨ p.1 = "Lethality"
        ∨ p.1 = "ArmorPen" ∨ p.1 = "Armor Pen") → (pyFloat p.2).isSome

/-- Deterministic oracle: every `random.random()` draw returns 1, so no
roll `random() < p` with `p ≤ 1` ever succeeds. -/
def oracleOne : ℕ → ℚ := fun _ => 1

/-- A mid-rotation state with Crescendum as main hand and `stk` chakram
stacks (no items, full ammo, no pending effects): the concrete input for
the dead-store claim about the Crescendum attack bonus. -/
def cresState (stk : ℤ) : SimState where
  weaponQueue := ["Crescendum", "Calibrum", "Severum", "Gravitum", "Infernum"]
  mainHand := "Crescendum"
  offHand := "Calibrum"
  stats := calculateBaseStats []
  enemyArmor := 0
  enemyHealth := 3000
  time := 0
  abilityCooldown := 0
  weaponAmmo := fun _ => 50
  chakramStacks := stk
  activeChakrams := ∅
  rngIdx := 0

/-- `ITEMS["Black Cleaver"]` transcribed. -/
def blackCleaver : Item :=
  [("AD", .num 40), ("Ability Haste", .num 20), ("Health", .num 400),
   ("ArmorPen", .num 0.30), ("name", .str "Black Cleaver")]

/-- `ITEMS["Lord Dominik's Regards"]` transcribed. -/
def lordDominiks : Item :=
  [("AD", .num 35), ("ArmorPen", .num 0.40), ("Crit Chance", .num 0.25),
   ("name", .str "Lord Dominik's Regards")]

/-- `ITEMS["Muramana"]` transcribed. -/
def muramana : Item :=
  [("AD", .num 49.29), ("Ability Haste", .num 31), ("Mana", .num 860),
   ("name", .str "Muramana")]

/-- `ITEMS["Infinity Edge"]` transcribed. -/
def infinityEdge : Item :=
  [("AD", .num 70), ("Crit Chance", .num 0.25), ("Crit Damage", .num 0.40),
   ("name", .str "Infinity Edge")]

/-- `ITEMS["Bloodthirster"]` transcribed. -/
def bloodthirster : Item :=
  [("AD", .num 80), ("Lifesteal", .num 0.15), ("Shield", .tup [165, 315]),
   ("name", .str "Bloodthirster")]

/-! ### Theorems -/

/-! #### Helper lemmas about the tick operations -/

theorem ensureAmmo_eq (s : SimState) (h : ¬ s.weaponAmmo s.mainHand ≤ 0) :
    ensureAmmo s = s := if_neg h

theorem use_ammo_eq (s : SimState) (n : ℤ) (h : ¬ s.weaponAmmo s.mainHand - n ≤ 0) :
    use_ammo s n
      = { s with weaponAmmo := fun w => if w = s.mainHand then s.weaponAmmo w - n
                                        else s.weaponAmmo w } := by
  unfold use_ammo
  rw [if_neg h]

@[simp] theorem abilityEffects_mainHand (s : SimState) :
    (abilityEffects s).mainHand = s.mainHand := by
  unfold abilityEffects; split <;> rfl

@[simp] theorem abilityEffects_activeChakrams (s : SimState) :
    (abilityEffects s).activeChakrams = s.activeChakrams := by
  unfold abilityEffects; split <;> rfl

@[simp] theorem abilityEffects_time (s : SimState) :
    (abilityEffects s).time = s.time := by
  unfold abilityEffects; split <;> rfl

@[simp] theorem abilityEffects_chakramStacks (s : SimState) :
    (abilityEffects s).chakramStacks = s.chakramStacks := by
  unfold abilityEffects; split <;> rfl

@[simp] theorem abilityEffects_abilityCooldown (s : SimState) :
    (abilityEffects s).abilityCooldown = s.abilityCooldown := by
  unfold abilityEffects; split <;> rfl

@[simp] theorem recomputeStacks_activeChakrams (s : SimState) :
    (recomputeStacks s).activeChakrams = s.activeChakrams := rfl

@[simp] theorem recomputeStacks_time (s : SimState) :
    (recomputeStacks s).time = s.time := rfl

@[simp] theorem recomputeStacks_chakramStacks (s : SimState) :
    (recomputeStacks s).chakramStacks
      = ((s.activeChakrams.filter (fun t => s.time < t)).card : ℤ) := rfl

theorem abilityChakra_not_cres (s : SimState) (h : s.mainHand ≠ "Crescendum") :
    abilityChakra s = s := by
  unfold abilityChakra; rw [if_neg h]

/-- The final state of `simulate_ability`, spelled through the step
functions. -/
theorem simulate_ability_snd (s : SimState) :
    (simulate_ability s).2
      = recomputeStacks (abilityChakra (abilityEffects (use_ammo (ensureAmmo s) 10))) := rfl

/-- Claim C9: every ability cast overwrites the chakram stack counter
with the count of not-yet-expired timed-effect entries (of the final
state's effect set and clock); consequently a cast with a non-Crescendum
main hand (enough ammo that no rotation interferes) and no pending
entries zeroes the counter, discarding stacks accrued from off-hand
Crescendum attacks. -/
theorem ability_overwrites_stacks (s : SimState) :
    ((simulate_ability s).2.chakramStacks
        = (((simulate_ability s).2.activeChakrams.filter
            (fun t => (simulate_ability s).2.time < t)).card : ℤ))
      ∧ (s.mainHand ≠ "Crescendum" → 11 ≤ s.weaponAmmo s.mainHand →
          s.activeChakrams = ∅ → (simulate_ability s).2.chakramStacks = 0) := by
  constructor
  · rfl
  · intro h1 h2 h3
    have e1 : ensureAmmo s = s := ensureAmmo_eq s (by omega)
    have e2 : use_ammo s 10
        = { s with weaponAmmo := fun w => if w = s.mainHand then s.weaponAmmo w - 10
                                          else s.weaponAmmo w } :=
      use_ammo_eq s 10 (by omega)
    rw [simulate_ability_snd, e1, e2]
    rw [abilityChakra_not_cres _ (by simpa using h1)]
    simp [h3]

/-- Witness for `ability_overwrites_stacks`: the fresh no-item simulator
(Calibrum main hand, full ammo, no pending effects) ends an ability cast
with zero stacks. -/
theorem ability_overwrites_stacks_witness :
    (simulate_ability (initState [] 200 3000)).2.chakramStacks = 0 :=
  (ability_overwrites_stacks (initState [] 200 3000)).2
    (by with_unfolding_all decide) (by with_unfolding_all decide) rfl

/-- Claim C2: the specification says that when the armor remaining after
penetration is negative the mitigation returns `d * (2 - 100/(100 - armor))`,
so `enemyArmor = -100` with zero pen should give the multiplier `1.5`.
The code floors the armor at `0` before the sign test, so the negative
branch is unreachable: at `damage = 100`, `enemy_armor = -100`, the
function returns `100` (multiplier `1`), not `150`, and going further
negative (`-200`) leaves it at `100` instead of increasing it. -/
theorem mitigation_negative_armor_clamped :
    apply_physical_mitigation 100 (-100) 0 0 = 100
      ∧ apply_physical_mitigation 100 (-200) 0 0 = 100
      ∧ apply_physical_mitigation 100 (-100) 0 0 ≠ 150 := by
  refine ⟨?_, ?_, ?_⟩ <;> with_unfolding_all decide

/-- Claim C3: the specification says percent armor pen takes the maximum
and is never summed, so two items each granting `0.15` should aggregate
to `ArmorPen = 0.15` under both spellings.  The `ArmorPen` branch of
`_calculate_base_stats` has no `continue`, so the value falls through to
the generic numeric branch: under the `"ArmorPen"` spelling the result is
`0.45` (max-update plus two further additions), not `0.15`; only the
`"Armor Pen"` spelling leaves the `ArmorPen` entry at the maximum
(the fall-through lands on the separate `"Armor Pen"` key). -/
theorem armorPen_fallthrough_sum :
    calculateBaseStats [[("ArmorPen", .num 0.15)], [("ArmorPen", .num 0.15)]] "ArmorPen" = 0.45
      ∧ calculateBaseStats [[("ArmorPen", .num 0.15)], [("ArmorPen", .num 0.15)]] "ArmorPen" ≠ 0.15
      ∧ calculateBaseStats [[("Armor Pen", .num 0.15)], [("Armor Pen", .num 0.15)]] "ArmorPen" = 0.15 := by
  refine ⟨?_, ?_, ?_⟩ <;> with_unfolding_all decide

/-- Claim C4: `apply_physical_mitigation` converts lethality to flat pen
at exactly 1.0x, subtracts it from armor floored at 0, reduces the rest
by the percent-pen fraction floored at 0, and returns
`d * 100/(100 + resultingArmor)` (the resulting armor is always ≥ 0);
armor 0 returns `d` unchanged, armor 100 with no pen halves `d`, and the
multiplier is monotonically non-increasing in the armor input. -/
theorem mitigation_formula_spec (d a p L : ℚ) (hp0 : 0 ≤ p) (hp1 : p ≤ 1) (hL : 0 ≤ L) :
    apply_physical_mitigation d a p L
        = d * (100 / (100 + max 0 (max 0 (a - L) * (1 - p))))
      ∧ apply_physical_mitigation d 0 0 0 = d
      ∧ apply_physical_mitigation d 100 0 0 = d * (1 / 2)
      ∧ (∀ a1 a2 : ℚ, 0 ≤ a1 → a1 ≤ a2 →
          apply_physical_mitigation 1 a2 p L ≤ apply_physical_mitigation 1 a1 p L) := by
  have hclosed : ∀ d' a' : ℚ, apply_physical_mitigation d' a' p L
      = d' * (100 / (100 + max 0 (max 0 (a' - L) * (1 - p)))) := by
    intro d' a'
    unfold apply_physical_mitigation
    rw [if_pos (le_max_left 0 _)]
    norm_num
  refine ⟨hclosed d a, ?_, ?_, ?_⟩
  · unfold apply_physical_mitigation; norm_num
  · unfold apply_physical_mitigation; norm_num
  · intro a1 a2 h0 h12
    rw [hclosed, hclosed, one_mul, one_mul]
    have hmax : max 0 (max 0 (a1 - L) * (1 - p)) ≤ max 0 (max 0 (a2 - L) * (1 - p)) := by
      have h1 : max 0 (a1 - L) ≤ max 0 (a2 - L) :=
        max_le_max le_rfl (by linarith)
      exact max_le_max le_rfl (mul_le_mul_of_nonneg_right h1 (by linarith))
    have hpos : (0:ℚ) < 100 + max 0 (max 0 (a1 - L) * (1 - p)) := by
      have := le_max_left (0:ℚ) (max 0 (a1 - L) * (1 - p))
      linarith
    gcongr

/-- Witness for `mitigation_formula_spec` at a concrete input:
armor 100 with zero penetration halves the damage. -/
theorem mitigation_formula_spec_witness :
    apply_physical_mitigation 6 100 0 0 = 6 * (1 / 2) :=
  (mitigation_formula_spec 6 100 0 0 le_rfl zero_le_one le_rfl).2.2.1

/-- Claim C1: the specification says that with Crescendum main-hand the
attack's returned damage includes a stack-scaling bonus, and the stacks
then drop by 3 floored at 0.  In the code the bonus
`total_ad * (0.1385 * chakram_stacks)` is assigned to a local that is
never read again, so the returned damage at 10 stacks equals the
returned damage at 0 stacks; the stack reduction (10 → 7) does happen. -/
theorem crescendum_bonus_dead_store :
    (simulate_attack oracleOne (cresState 10)).1 = (simulate_attack oracleOne (cresState 0)).1
      ∧ (simulate_attack oracleOne (cresState 10)).1 = 81.05
      ∧ (simulate_attack oracleOne (cresState 10)).2.chakramStacks = 7
      ∧ (simulate_attack oracleOne (cresState 0)).2.chakramStacks = 0 := by
  refine ⟨?_, ?_, ?_, ?_⟩ <;> with_unfolding_all decide

/-- Claim C7: `calculate_dps` with a non-positive duration returns
exactly 0 for every state (the `while` guard fails immediately and the
final expression selects the `else 0` arm instead of dividing). -/
theorem dps_zero_duration (oracle : ℕ → ℚ) (duration : ℚ) (fuel : ℕ) (s : SimState)
    (hd : duration ≤ 0) : (calculate_dps oracle duration fuel s).1 = 0 := by
  unfold calculate_dps
  simp only [if_neg (not_lt.mpr hd)]

/-- Witness for `dps_zero_duration`: the fresh simulator with no items
at duration 0 yields DPS 0. -/
theorem dps_zero_duration_witness :
    (calculate_dps oracleOne 0 5 (initState [] 200 3000)).1 = 0 :=
  dps_zero_duration oracleOne 0 5 (initState [] 200 3000) le_rfl

theorem resultLE_trans : ∀ a b c : ScoredResult, resultLE a b → resultLE b c → resultLE a c := by
  intro a b c h1 h2
  simp only [resultLE, decide_eq_true_eq] at h1 h2 ⊢
  rcases h1 with h1 | ⟨h1e, h1d⟩ <;> rcases h2 with h2 | ⟨h2e, h2d⟩
  · exact Or.inl (lt_trans h1 h2)
  · exact Or.inl (h2e ▸ h1)
  · exact Or.inl (h1e ▸ h2)
  · exact Or.inr ⟨h1e.trans h2e, le_trans h1d h2d⟩

theorem resultLE_total : ∀ a b : ScoredResult, resultLE a b || resultLE b a := by
  intro a b
  simp only [resultLE, Bool.or_eq_true, decide_eq_true_eq]
  rcases lt_trichotomy (-a.score) (-b.score) with h | h | h
  · exact Or.inl (Or.inl h)
  · rcases le_total (-a.dps) (-b.dps) with hd | hd
    · exact Or.inl (Or.inr ⟨h, hd⟩)
    · exact Or.inr (Or.inr ⟨h.symm, hd⟩)
  · exact Or.inr (Or.inl h)

/-- Claim C8: the list returned by the search driver's terminal sort is
ordered descending primarily by composite score and secondarily by raw
DPS: every adjacent pair satisfies `score[i] ≥ score[i+1]`, and where the
scores are equal, `dps[i] ≥ dps[i+1]`. -/
theorem optimize_sorted (l : List ScoredResult) :
    List.Chain' (fun a b => b.score ≤ a.score ∧ (a.score = b.score → b.dps ≤ a.dps))
      (sortResults l) := by
  have hp := List.sorted_mergeSort resultLE_trans resultLE_total l
  have hp2 : (sortResults l).Pairwise
      (fun a b => b.score ≤ a.score ∧ (a.score = b.score → b.dps ≤ a.dps)) := by
    refine hp.imp ?_
    intro a b hab
    simp only [resultLE, decide_eq_true_eq] at hab
    rcases hab with h | ⟨he, hd⟩
    · refine ⟨by linarith, ?_⟩
      intro hee
      exfalso
      rw [hee] at h
      exact lt_irrefl _ h
    · exact ⟨by linarith, fun _ => by linarith⟩
  exact hp2.chain'

/-- Witness for `optimize_sorted` at a concrete two-element result list. -/
theorem optimize_sorted_witness :
    List.Chain' (fun a b => b.score ≤ a.score ∧ (a.score = b.score → b.dps ≤ a.dps))
      (sortResults [⟨[], 1, 2, 0, 0, 0, 0, 0, 0⟩, ⟨[], 3, 1, 0, 0, 0, 0, 0, 0⟩]) :=
  optimize_sorted [⟨[], 1, 2, 0, 0, 0, 0, 0, 0⟩, ⟨[], 3, 1, 0, 0, 0, 0, 0, 0⟩]

/-! #### Aggregation order-independence (outside the armor-pen keys) -/

theorem addStat_zero (f : String → ℚ) (k : String) : addStat f k 0 = f := by
  funext k'
  unfold addStat
  split <;> simp

theorem addStat_comm (f : String → ℚ) (k1 k2 : String) (a b : ℚ) :
    addStat (addStat f k1 a) k2 b = addStat (addStat f k2 b) k1 a := by
  funext k'
  unfold addStat
  split_ifs <;> ring

/-- Normal form of a `stepStat` update whose key is not one of the two
armor-pen spellings. -/
theorem stepStat_eq (s : AggState) (k : String) (v : StatValue)
    (hk1 : k ≠ "ArmorPen") (hk2 : k ≠ "Armor Pen") :
    stepStat s (k, v)
      = ⟨addStat s.stats (aggKey k) (aggVal k v), s.hasIE || ieVal k v,
         s.bonusAD + adVal k v⟩ := by
  obtain ⟨st, ie, bad⟩ := s
  unfold stepStat aggKey aggVal adVal ieVal
  by_cases h1 : k = "name"
  · subst h1
    cases v with
    | str n => by_cases hn : n = "Infinity Edge" <;> simp [hn, addStat_zero]
    | num q => simp [addStat_zero]
    | tup l => simp [addStat_zero]
    | flag b => simp [addStat_zero]
  · by_cases h2 : k = "Crit Chance"
    · subst h2
      cases v <;> simp [pyFloat, addStat_zero]
    · by_cases h3 : k = "AD"
      · subst h3
        cases v <;> simp [pyFloat, addStat_zero]
      · by_cases h4 : k = "Lethality"
        · subst h4
          cases v <;> simp [pyFloat, addStat_zero]
        · simp only [if_neg h1, if_neg h2, if_neg h3, if_neg h4,
            if_neg (by simp [hk1, hk2] : ¬ (k = "ArmorPen" ∨ k = "Armor Pen"))]
          cases v with
          | str n => simp [h1, h2, h3, h4, addStat_zero]
          | num q => simp [h1, h2, h3, h4]
          | tup l =>
              by_cases hl : l.isEmpty <;>
                simp [h1, h2, h3, h4, hl, addStat_zero]
          | flag b => simp [h1, h2, h3, h4]

/-- Two non-armor-pen `stepStat` updates commute. -/
theorem stepStat_comm (s : AggState) (p q : String × StatValue)
    (hp1 : p.1 ≠ "ArmorPen") (hp2 : p.1 ≠ "Armor Pen")
    (hq1 : q.1 ≠ "ArmorPen") (hq2 : q.1 ≠ "Armor Pen") :
    stepStat (stepStat s p) q = stepStat (stepStat s q) p := by
  obtain ⟨k1, v1⟩ := p
  obtain ⟨k2, v2⟩ := q
  rw [stepStat_eq s k1 v1 hp1 hp2, stepStat_eq _ k2 v2 hq1 hq2,
      stepStat_eq s k2 v2 hq1 hq2, stepStat_eq _ k1 v1 hp1 hp2]
  congr 1
  · exact addStat_comm _ _ _ _ _
  · show ((s.hasIE || ieVal k1 v1) || ieVal k2 v2) = ((s.hasIE || ieVal k2 v2) || ieVal k1 v1)
    cases s.hasIE <;> cases ieVal k1 v1 <;> cases ieVal k2 v2 <;> rfl
  · show (s.bonusAD + adVal k1 v1) + adVal k2 v2 = (s.bonusAD + adVal k2 v2) + adVal k1 v1
    ring

theorem foldl_stepStat_push (it : Item)
    (hit : ∀ p ∈ it, p.1 ≠ "ArmorPen" ∧ p.1 ≠ "Armor Pen")
    (p : String × StatValue) (hp1 : p.1 ≠ "ArmorPen") (hp2 : p.1 ≠ "Armor Pen")
    (s : AggState) :
    it.foldl stepStat (stepStat s p) = stepStat (it.foldl stepStat s) p := by
  induction it generalizing s with
  | nil => rfl
  | cons q it ih =>
    simp only [List.foldl_cons]
    rw [stepStat_comm s p q hp1 hp2 (hit q (by simp)).1 (hit q (by simp)).2]
    exact ih (fun r hr => hit r (by simp [hr])) _

theorem stepItem_comm (it1 it2 : Item)
    (h1 : ∀ p ∈ it1, p.1 ≠ "ArmorPen" ∧ p.1 ≠ "Armor Pen")
    (h2 : ∀ p ∈ it2, p.1 ≠ "ArmorPen" ∧ p.1 ≠ "Armor Pen")
    (s : AggState) :
    it2.foldl stepStat (it1.foldl stepStat s) = it1.foldl stepStat (it2.foldl stepStat s) := by
  induction it1 generalizing s with
  | nil => rfl
  | cons p it1 ih =>
    simp only [List.foldl_cons]
    rw [ih (fun r hr => h1 r (by simp [hr])) (stepStat s p),
        foldl_stepStat_push it2 h2 p (h1 p (by simp)).1 (h1 p (by simp)).2]

theorem aggFold_perm (l1 l2 : List Item) (hperm : l1.Perm l2)
    (hok : noArmorPenKeys l1) : aggFold l1 = aggFold l2 := by
  unfold aggFold
  refine hperm.foldl_eq' ?_ _
  intro it1 hm1 it2 hm2 z
  exact stepItem_comm it1 it2 (fun p hp => hok it1 hm1 p hp)
    (fun p hp => hok it2 hm2 p hp) z

/-- Claim C6 (amended): for item lists that grant no percent armor pen
(the one order-sensitive accumulation) and whose special-key values are
well typed, aggregation is order-independent — any permutation of the
item list produces an identical stat snapshot.  (The memo cache of the
source is keyed by the item tuple in its given order, not a sorted one;
permuted calls recompute, and with armor-pen items they can return
different snapshots — see the counterexample.) -/
theorem aggregation_perm_invariant (l1 l2 : List Item) (hperm : l1.Perm l2)
    (hpen : noArmorPenKeys l1) (hwt : wellTypedItems l1) :
    calculateBaseStats l1 = calculateBaseStats l2 := by
  unfold calculateBaseStats
  rw [aggFold_perm l1 l2 hperm hpen]

/-- Witness for `aggregation_perm_invariant`: swapping two concrete
catalog items without armor pen yields the same snapshot. -/
theorem aggregation_perm_invariant_witness :
    calculateBaseStats [muramana, infinityEdge]
      = calculateBaseStats [infinityEdge, muramana] :=
  aggregation_perm_invariant [muramana, infinityEdge] [infinityEdge, muramana]
    (List.Perm.swap infinityEdge muramana [])
    (by with_unfolding_all decide) (by with_unfolding_all decide)

/-- Counterexample for claim C6 as stated: the same five catalog items in
two orders (Black Cleaver and Lord Dominik's Regards swapped) produce
different `ArmorPen` values in the aggregated snapshot (1.0 versus 1.1),
because the armor-pen fall-through accumulation is order-dependent. -/
theorem aggregation_order_dependent :
    calculateBaseStats [blackCleaver, lordDominiks, muramana, infinityEdge, bloodthirster]
        "ArmorPen" = 1
      ∧ calculateBaseStats [lordDominiks, blackCleaver, muramana, infinityEdge, bloodthirster]
          "ArmorPen" = 1.1
      ∧ calculateBaseStats [blackCleaver, lordDominiks, muramana, infinityEdge, bloodthirster]
            "ArmorPen"
          ≠ calculateBaseStats [lordDominiks, blackCleaver, muramana, infinityEdge, bloodthirster]
            "ArmorPen" := by
  refine ⟨?_, ?_, ?_⟩ <;> with_unfolding_all decide

/-! #### Ammo monotonicity -/

theorem rotate_weapon_ammo (s : SimState) (w : String) :
    (rotate_weapon s).weaponAmmo w = s.weaponAmmo w := by
  unfold rotate_weapon
  cases s.weaponQueue <;> rfl

theorem ensureAmmo_ammo (s : SimState) (w : String) :
    (ensureAmmo s).weaponAmmo w = s.weaponAmmo w := by
  unfold ensureAmmo
  split
  · exact rotate_weapon_ammo s w
  · rfl

theorem use_ammo_ammo_le (s : SimState) (n : ℤ) (hn : 0 ≤ n) (w : String) :
    (use_ammo s n).weaponAmmo w ≤ s.weaponAmmo w := by
  have base : (if w = s.mainHand then s.weaponAmmo w - n else s.weaponAmmo w)
      ≤ s.weaponAmmo w := by
    split <;> omega
  unfold use_ammo
  split
  · rw [rotate_weapon_ammo]
    exact base
  · exact base

theorem attackEffects_ammo (oracle : ℕ → ℚ) (s : SimState) (w : String) :
    (attackEffects oracle s).weaponAmmo w = s.weaponAmmo w := by
  unfold attackEffects
  split <;> rfl

theorem attackStacks_ammo (oracle : ℕ → ℚ) (s : SimState) (w : String) :
    (attackStacks oracle s).weaponAmmo w = s.weaponAmmo w := by
  unfold attackStacks
  split
  · rfl
  · split
    · split <;> rfl
    · rfl

theorem simulate_attack_ammo_le (oracle : ℕ → ℚ) (s : SimState) (w : String) :
    (simulate_attack oracle s).2.weaponAmmo w ≤ s.weaponAmmo w := by
  show (attackStacks oracle (attackEffects oracle (use_ammo (ensureAmmo s) 1))).weaponAmmo w
      ≤ s.weaponAmmo w
  rw [attackStacks_ammo, attackEffects_ammo]
  calc (use_ammo (ensureAmmo s) 1).weaponAmmo w
      ≤ (ensureAmmo s).weaponAmmo w := use_ammo_ammo_le _ 1 (by norm_num) w
    _ = s.weaponAmmo w := ensureAmmo_ammo s w

theorem abilityEffects_ammo (s : SimState) (w : String) :
    (abilityEffects s).weaponAmmo w = s.weaponAmmo w := by
  unfold abilityEffects
  split <;> rfl

theorem abilityChakra_ammo (s : SimState) (w : String) :
    (abilityChakra s).weaponAmmo w = s.weaponAmmo w := by
  unfold abilityChakra
  split <;> rfl

theorem simulate_ability_ammo_le (s : SimState) (w : String) :
    (simulate_ability s).2.weaponAmmo w ≤ s.weaponAmmo w := by
  rw [simulate_ability_snd]
  show (abilityChakra (abilityEffects (use_ammo (ensureAmmo s) 10))).weaponAmmo w
      ≤ s.weaponAmmo w
  rw [abilityChakra_ammo, abilityEffects_ammo]
  calc (use_ammo (ensureAmmo s) 10).weaponAmmo w
      ≤ (ensureAmmo s).weaponAmmo w := use_ammo_ammo_le _ 10 (by norm_num) w
    _ = s.weaponAmmo w := ensureAmmo_ammo s w

theorem abilityBlock_ammo_le (s : SimState) (w : String) :
    (abilityBlock s).2.weaponAmmo w ≤ s.weaponAmmo w := by
  show (simulate_ability s).2.weaponAmmo w ≤ s.weaponAmmo w
  exact simulate_ability_ammo_le s w

theorem afterAttack_ammo_le (oracle : ℕ → ℚ) (s1 : SimState) (w : String) :
    (afterAttack oracle s1).weaponAmmo w ≤ s1.weaponAmmo w := by
  show (simulate_attack oracle s1).2.weaponAmmo w ≤ s1.weaponAmmo w
  exact simulate_attack_ammo_le oracle s1 w

/-- `loopIter` restated through the named step functions (definitional). -/
theorem loopIter_eq (oracle : ℕ → ℚ) (s : SimState) :
    loopIter oracle s
      = if abilityFires (afterAttack oracle (ensureAmmo s)) then
          ((simulate_attack oracle (ensureAmmo s)).1
              + (abilityBlock (afterAttack oracle (ensureAmmo s))).1,
            (abilityBlock (afterAttack oracle (ensureAmmo s))).2,
            ⟨ensureAmmo s, afterAttack oracle (ensureAmmo s),
              (abilityBlock (afterAttack oracle (ensureAmmo s))).2⟩)
        else
          ((simulate_attack oracle (ensureAmmo s)).1, afterAttack oracle (ensureAmmo s),
            ⟨ensureAmmo s, afterAttack oracle (ensureAmmo s),
              afterAttack oracle (ensureAmmo s)⟩) := rfl

theorem loopIter_ammo_le (oracle : ℕ → ℚ) (s : SimState) (w : String) :
    (loopIter oracle s).2.1.weaponAmmo w ≤ s.weaponAmmo w := by
  rw [loopIter_eq]
  split
  · show (abilityBlock (afterAttack oracle (ensureAmmo s))).2.weaponAmmo w ≤ s.weaponAmmo w
    calc (abilityBlock (afterAttack oracle (ensureAmmo s))).2.weaponAmmo w
        ≤ (afterAttack oracle (ensureAmmo s)).weaponAmmo w := abilityBlock_ammo_le _ w
      _ ≤ (ensureAmmo s).weaponAmmo w := afterAttack_ammo_le _ _ w
      _ = s.weaponAmmo w := ensureAmmo_ammo s w
  · show (afterAttack oracle (ensureAmmo s)).weaponAmmo w ≤ s.weaponAmmo w
    calc (afterAttack oracle (ensureAmmo s)).weaponAmmo w
        ≤ (ensureAmmo s).weaponAmmo w := afterAttack_ammo_le _ _ w
      _ = s.weaponAmmo w := ensureAmmo_ammo s w

theorem dpsLoop_ammo_le (oracle : ℕ → ℚ) (duration : ℚ) :
    ∀ (fuel : ℕ) (s : SimState) (total : ℚ) (w : String),
      (dpsLoop oracle duration fuel s total).2.1.weaponAmmo w ≤ s.weaponAmmo w := by
  intro fuel
  induction fuel with
  | zero => intro s total w; exact le_refl _
  | succ n ih =>
    intro s total w
    by_cases h : s.time < duration
    · have hstep : (dpsLoop oracle duration (n + 1) s total).2.1
          = (dpsLoop oracle duration n (loopIter oracle s).2.1
              (total + (loopIter oracle s).1)).2.1 := by
        simp [dpsLoop, if_pos h]
      rw [hstep]
      exact le_trans (ih _ _ w) (loopIter_ammo_le oracle s w)
    · have hstop : dpsLoop oracle duration (n + 1) s total = (total, s, []) := by
        simp [dpsLoop, if_neg h]
      rw [hstop]

/-- The final state of `calculate_dps`, definitional restatement. -/
theorem calculate_dps_state (oracle : ℕ → ℚ) (duration : ℚ) (fuel : ℕ) (s : SimState) :
    (calculate_dps oracle duration fuel s).2.1
      = if weaponNames.all
            (fun w => decide ((dpsLoop oracle duration fuel s 0).2.1.weaponAmmo w ≤ 0))
        then rotate_weapon (dpsLoop oracle duration fuel s 0).2.1
        else (dpsLoop oracle duration fuel s 0).2.1 := rfl

theorem calculate_dps_ammo_le (oracle : ℕ → ℚ) (duration : ℚ) (fuel : ℕ)
    (s : SimState) (w : String) :
    (calculate_dps oracle duration fuel s).2.1.weaponAmmo w ≤ s.weaponAmmo w := by
  rw [calculate_dps_state]
  split
  · rw [rotate_weapon_ammo]
    exact dpsLoop_ammo_le oracle duration fuel s 0 w
  · exact dpsLoop_ammo_le oracle duration fuel s 0 w

/-- Claim C10 (amended): no simulator operation ever increases any
weapon's ammo counter — ammo starts at 50 per weapon, attacks and
abilities only decrement it, rotation leaves it unchanged, and whole
runs are monotonically non-increasing.  (The further consequence claimed
— at most 50 basic attacks per weapon over an entire run — fails: an
attack proceeds even when every weapon's ammo is exhausted, after a
single rotation, driving ammo negative; see the counterexample.) -/
theorem ammo_monotone_nonincreasing (oracle : ℕ → ℚ) (s : SimState) (w : String)
    (n : ℤ) (duration total : ℚ) (fuel : ℕ) (items : List Item) (ea eh : ℚ)
    (hn : 0 ≤ n) :
    (initState items ea eh).weaponAmmo w = 50
      ∧ (rotate_weapon s).weaponAmmo w = s.weaponAmmo w
      ∧ (use_ammo s n).weaponAmmo w ≤ s.weaponAmmo w
      ∧ (simulate_attack oracle s).2.weaponAmmo w ≤ s.weaponAmmo w
      ∧ (simulate_ability s).2.weaponAmmo w ≤ s.weaponAmmo w
      ∧ (dpsLoop oracle duration fuel s total).2.1.weaponAmmo w ≤ s.weaponAmmo w
      ∧ (calculate_dps oracle duration fuel s).2.1.weaponAmmo w ≤ s.weaponAmmo w :=
  ⟨rfl, rotate_weapon_ammo s w, use_ammo_ammo_le s n hn w,
    simulate_attack_ammo_le oracle s w, simulate_ability_ammo_le s w,
    dpsLoop_ammo_le oracle duration fuel s total w,
    calculate_dps_ammo_le oracle duration fuel s w⟩

/-- Witness for `ammo_monotone_nonincreasing`: one `use_ammo` tick on the
fresh simulator does not increase Calibrum's ammo. -/
theorem ammo_monotone_nonincreasing_witness :
    (use_ammo (initState [] 200 3000) 1).weaponAmmo "Calibrum"
      ≤ (initState [] 200 3000).weaponAmmo "Calibrum" :=
  (ammo_monotone_nonincreasing oracleOne (initState [] 200 3000) "Calibrum" 1 0 0 0 [] 200 3000
    (by norm_num)).2.2.1

set_option maxHeartbeats 4000000 in
/-- Counterexample for claim C10 as stated ("each weapon supports at most
50 basic attacks over an entire run"): a complete no-item run of
duration 770 s (the loop exits by its own time condition, as the final
clock shows) performs 51 basic attacks with Calibrum — once every
weapon's ammo is exhausted, an attack still proceeds after a single
rotation and pushes the counter negative. -/
theorem weapon_attacks_exceed_fifty :
    50 < attackCount (calculate_dps oracleOne 770 260 (initState [] 200 3000)).2.2 "Calibrum"
      ∧ (770:ℚ) ≤ (calculate_dps oracleOne 770 260 (initState [] 200 3000)).2.1.time := by
  constructor <;> with_unfolding_all decide

/-! #### Chakram stack bounds (claim C5) -/

theorem pyInt_decay_bounds (x : ℤ) (h0 : 0 ≤ x) :
    0 ≤ pyInt ((x : ℚ) * 0.7) ∧ pyInt ((x : ℚ) * 0.7) ≤ x := by
  have hx : (0:ℚ) ≤ (x : ℚ) := by exact_mod_cast h0
  unfold pyInt
  rw [if_pos (by positivity)]
  constructor
  · exact Int.le_floor.mpr (by positivity)
  · have h1 : (x : ℚ) * 0.7 ≤ (x : ℚ) := by nlinarith
    have h2 := Int.floor_le_floor h1
    rwa [Int.floor_intCast] at h2

theorem rotate_weapon_chakrams (s : SimState) :
    (rotate_weapon s).activeChakrams = s.activeChakrams := by
  unfold rotate_weapon
  cases s.weaponQueue <;> rfl

theorem rotate_weapon_cd_le (s : SimState) :
    s.abilityCooldown ≤ (rotate_weapon s).abilityCooldown := by
  unfold rotate_weapon
  cases s.weaponQueue <;> exact le_max_left _ _

theorem rotate_weapon_time_le (s : SimState) :
    s.time ≤ (rotate_weapon s).time := by
  unfold rotate_weapon
  cases s.weaponQueue <;> (show s.time ≤ s.time + 1; linarith)

theorem rotate_weapon_inv (s : SimState) (h : ChakraInv s) :
    ChakraInv (rotate_weapon s) := by
  obtain ⟨⟨h0, h20⟩, hcd, hsp⟩ := h
  have hcd' : ∀ t ∈ (rotate_weapon s).activeChakrams,
      t ≤ (rotate_weapon s).abilityCooldown + 4.5 := by
    intro t ht
    rw [rotate_weapon_chakrams] at ht
    exact le_trans (hcd t ht) (by linarith [rotate_weapon_cd_le s])
  have hsp' : ∀ t1 ∈ (rotate_weapon s).activeChakrams,
      ∀ t2 ∈ (rotate_weapon s).activeChakrams, t1 ≠ t2 → (3.5:ℚ) ≤ |t1 - t2| := by
    intro t1 ht1 t2 ht2
    rw [rotate_weapon_chakrams] at ht1 ht2
    exact hsp t1 ht1 t2 ht2
  refine ⟨⟨?_, ?_⟩, hcd', hsp'⟩
  · show 0 ≤ (rotate_weapon s).chakramStacks
    unfold rotate_weapon
    cases s.weaponQueue with
    | nil => exact h0
    | cons a rest =>
        show 0 ≤ (if a = "Crescendum" then pyInt ((s.chakramStacks : ℚ) * 0.7)
                  else s.chakramStacks)
        split
        · exact (pyInt_decay_bounds _ h0).1
        · exact h0
  · show (rotate_weapon s).chakramStacks ≤ 20
    unfold rotate_weapon
    cases s.weaponQueue with
    | nil => exact h20
    | cons a rest =>
        show (if a = "Crescendum" then pyInt ((s.chakramStacks : ℚ) * 0.7)
              else s.chakramStacks) ≤ 20
        split
        · exact le_trans (pyInt_decay_bounds _ h0).2 h20
        · exact h20

theorem ensureAmmo_inv (s : SimState) (h : ChakraInv s) : ChakraInv (ensureAmmo s) := by
  unfold ensureAmmo
  split
  · exact rotate_weapon_inv s h
  · exact h

theorem use_ammo_inv (s : SimState) (n : ℤ) (h : ChakraInv s) : ChakraInv (use_ammo s n) := by
  unfold use_ammo
  split
  · exact rotate_weapon_inv _ h
  · exact h

theorem attackEffects_inv (oracle : ℕ → ℚ) (s : SimState) (h : ChakraInv s) :
    ChakraInv (attackEffects oracle s) := by
  unfold attackEffects
  split <;> exact h

theorem attackStacks_inv (oracle : ℕ → ℚ) (s : SimState) (h : ChakraInv s) :
    ChakraInv (attackStacks oracle s) := by
  obtain ⟨⟨h0, h20⟩, hcd, hsp⟩ := h
  unfold attackStacks
  split
  · exact ⟨⟨le_max_left 0 _, max_le (by norm_num) (by omega)⟩, hcd, hsp⟩
  · split
    · split
      · exact ⟨⟨le_min (by norm_num) (by omega), min_le_left _ _⟩, hcd, hsp⟩
      · exact ⟨⟨h0, h20⟩, hcd, hsp⟩
    · exact ⟨⟨h0, h20⟩, hcd, hsp⟩

theorem simulate_attack_inv (oracle : ℕ → ℚ) (s : SimState) (h : ChakraInv s) :
    ChakraInv (simulate_attack oracle s).2 := by
  show ChakraInv (attackStacks oracle (attackEffects oracle (use_ammo (ensureAmmo s) 1)))
  exact attackStacks_inv oracle _ (attackEffects_inv oracle _
    (use_ammo_inv _ 1 (ensureAmmo_inv s h)))

theorem afterAttack_inv (oracle : ℕ → ℚ) (s1 : SimState) (h : ChakraInv s1) :
    ChakraInv (afterAttack oracle s1) :=
  simulate_attack_inv oracle s1 h

/-! The cast-window argument: with a cooldown of 3 s between casts and
expiries 5 s out, at most one pending entry can still be unexpired when a
cast is permitted, and every entry sits in a 1.5 s window past the
current clock. -/

theorem chakra_window (F : Finset ℚ) (cd0 time0 T : ℚ)
    (hcd : ∀ t ∈ F, t ≤ cd0 + 4.5) (hc : 3 ≤ time0 - cd0) (hT : time0 ≤ T) :
    ∀ t ∈ F, t ≤ T + 1.5 := by
  intro t ht
  have := hcd t ht
  linarith

theorem chakra_window_card (F : Finset ℚ) (cd0 time0 T : ℚ)
    (hcd : ∀ t ∈ F, t ≤ cd0 + 4.5)
    (hsp : ∀ t1 ∈ F, ∀ t2 ∈ F, t1 ≠ t2 → (3.5:ℚ) ≤ |t1 - t2|)
    (hc : 3 ≤ time0 - cd0) (hT : time0 ≤ T) :
    (F.filter (fun t => T < t)).card ≤ 1 := by
  apply Finset.card_le_one.mpr
  intro a ha b hb
  rw [Finset.mem_filter] at ha hb
  by_contra hne
  have h1 := hsp a ha.1 b hb.1 hne
  have h2 := chakra_window F cd0 time0 T hcd hc hT a ha.1
  have h3 := chakra_window F cd0 time0 T hcd hc hT b hb.1
  have h4 : |a - b| ≤ 1.5 := abs_le.mpr ⟨by linarith [ha.2, hb.2], by linarith [ha.2, hb.2]⟩
  linarith

theorem chakra_insert_card (F : Finset ℚ) (cd0 time0 T : ℚ)
    (hcd : ∀ t ∈ F, t ≤ cd0 + 4.5)
    (hsp : ∀ t1 ∈ F, ∀ t2 ∈ F, t1 ≠ t2 → (3.5:ℚ) ≤ |t1 - t2|)
    (hc : 3 ≤ time0 - cd0) (hT : time0 ≤ T) :
    ((insert (T + 5) F).filter (fun t => T < t)).card ≤ 2 := by
  rw [Finset.filter_insert, if_pos (by linarith : T < T + 5)]
  exact le_trans (Finset.card_insert_le _ _)
    (by have := chakra_window_card F cd0 time0 T hcd hsp hc hT; omega)

theorem chakra_insert_bound (F : Finset ℚ) (cd0 time0 T : ℚ)
    (hcd : ∀ t ∈ F, t ≤ cd0 + 4.5) (hc : 3 ≤ time0 - cd0) (hT : time0 ≤ T) :
    ∀ t ∈ insert (T + 5) F, t ≤ (T + 0.5) + 4.5 := by
  intro t ht
  rcases Finset.mem_insert.mp ht with rfl | hm
  · linarith
  · have := chakra_window F cd0 time0 T hcd hc hT t hm
    linarith

theorem chakra_insert_spacing (F : Finset ℚ) (cd0 time0 T : ℚ)
    (hcd : ∀ t ∈ F, t ≤ cd0 + 4.5)
    (hsp : ∀ t1 ∈ F, ∀ t2 ∈ F, t1 ≠ t2 → (3.5:ℚ) ≤ |t1 - t2|)
    (hc : 3 ≤ time0 - cd0) (hT : time0 ≤ T) :
    ∀ t1 ∈ insert (T + 5) F, ∀ t2 ∈ insert (T + 5) F, t1 ≠ t2 → (3.5:ℚ) ≤ |t1 - t2| := by
  have hwin := chakra_window F cd0 time0 T hcd hc hT
  intro t1 ht1 t2 ht2 hne
  rcases Finset.mem_insert.mp ht1 with rfl | hm1 <;>
    rcases Finset.mem_insert.mp ht2 with h2 | hm2
  · exact absurd h2.symm hne
  · have := hwin t2 hm2
    rw [abs_of_nonneg (by linarith)]
    linarith
  · subst h2
    have := hwin t1 hm1
    rw [abs_of_nonpos (by linarith)]
    linarith
  · exact hsp t1 hm1 t2 hm2 hne

theorem use_ammo_chakrams (s : SimState) (n : ℤ) :
    (use_ammo s n).activeChakrams = s.activeChakrams := by
  unfold use_ammo
  split
  · rw [rotate_weapon_chakrams]
  · rfl

theorem ensureAmmo_chakrams (s : SimState) :
    (ensureAmmo s).activeChakrams = s.activeChakrams := by
  unfold ensureAmmo
  split
  · exact rotate_weapon_chakrams s
  · rfl

theorem use_ammo_time_le (s : SimState) (n : ℤ) : s.time ≤ (use_ammo s n).time := by
  unfold use_ammo
  split
  · exact rotate_weapon_time_le _
  · exact le_refl _

theorem ensureAmmo_time_le (s : SimState) : s.time ≤ (ensureAmmo s).time := by
  unfold ensureAmmo
  split
  · exact rotate_weapon_time_le _
  · exact le_refl _

/-- Bounds on the state a cast leaves behind, given the inductive
invariant and the cast-permission condition on the state entering the
cast: stacks land in 0..20 (in fact at most 2 entries are unexpired),
all pending entries sit at most 4.5 s past the new cooldown reference
`time + 0.5` that the driver sets right after the cast, and the pairwise
spacing is kept. -/
theorem simulate_ability_inv (s : SimState) (h : ChakraInv s)
    (hc : 3 ≤ s.time - s.abilityCooldown) :
    stacksOk (simulate_ability s).2
      ∧ (∀ t ∈ (simulate_ability s).2.activeChakrams,
          t ≤ ((simulate_ability s).2.time + 0.5) + 4.5)
      ∧ (∀ t1 ∈ (simulate_ability s).2.activeChakrams,
          ∀ t2 ∈ (simulate_ability s).2.activeChakrams, t1 ≠ t2 → (3.5:ℚ) ≤ |t1 - t2|) := by
  obtain ⟨⟨h0, h20⟩, hcd, hsp⟩ := h
  have hset2 : (use_ammo (ensureAmmo s) 10).activeChakrams = s.activeChakrams := by
    rw [use_ammo_chakrams, ensureAmmo_chakrams]
  have htime2 : s.time ≤ (use_ammo (ensureAmmo s) 10).time :=
    le_trans (ensureAmmo_time_le s) (use_ammo_time_le _ 10)
  by_cases hcres : (abilityEffects (use_ammo (ensureAmmo s) 10)).mainHand = "Crescendum"
  · have hset4 : (abilityChakra (abilityEffects (use_ammo (ensureAmmo s) 10))).activeChakrams
        = insert ((use_ammo (ensureAmmo s) 10).time + 5) s.activeChakrams := by
      unfold abilityChakra
      rw [if_pos hcres]
      show insert ((abilityEffects (use_ammo (ensureAmmo s) 10)).time + 5)
            (abilityEffects (use_ammo (ensureAmmo s) 10)).activeChakrams = _
      rw [abilityEffects_time, abilityEffects_activeChakrams, hset2]
    have htime4 : (abilityChakra (abilityEffects (use_ammo (ensureAmmo s) 10))).time
        = (use_ammo (ensureAmmo s) 10).time := by
      unfold abilityChakra
      rw [if_pos hcres]
      show (abilityEffects (use_ammo (ensureAmmo s) 10)).time = _
      exact abilityEffects_time _
    have hcard := chakra_insert_card s.activeChakrams s.abilityCooldown s.time
      (use_ammo (ensureAmmo s) 10).time hcd hsp hc htime2
    refine ⟨⟨?_, ?_⟩, ?_, ?_⟩
    all_goals
      simp only [simulate_ability_snd, recomputeStacks_chakramStacks, recomputeStacks_time,
        recomputeStacks_activeChakrams, hset4, htime4]
    · exact Int.natCast_nonneg _
    · have hcast : ((((insert ((use_ammo (ensureAmmo s) 10).time + 5)
            s.activeChakrams).filter (fun t => (use_ammo (ensureAmmo s) 10).time < t)).card : ℤ))
          ≤ 2 := by exact_mod_cast hcard
      linarith
    · exact chakra_insert_bound s.activeChakrams s.abilityCooldown s.time
        (use_ammo (ensureAmmo s) 10).time hcd hc htime2
    · exact chakra_insert_spacing s.activeChakrams s.abilityCooldown s.time
        (use_ammo (ensureAmmo s) 10).time hcd hsp hc htime2
  · have hset4 : (abilityChakra (abilityEffects (use_ammo (ensureAmmo s) 10))).activeChakrams
        = s.activeChakrams := by
      unfold abilityChakra
      rw [if_neg hcres]
      rw [abilityEffects_activeChakrams, hset2]
    have htime4 : (abilityChakra (abilityEffects (use_ammo (ensureAmmo s) 10))).time
        = (use_ammo (ensureAmmo s) 10).time := by
      unfold abilityChakra
      rw [if_neg hcres]
      exact abilityEffects_time _
    have hcard := chakra_window_card s.activeChakrams s.abilityCooldown s.time
      (use_ammo (ensureAmmo s) 10).time hcd hsp hc htime2
    have hwin := chakra_window s.activeChakrams s.abilityCooldown s.time
      (use_ammo (ensureAmmo s) 10).time hcd hc htime2
    refine ⟨⟨?_, ?_⟩, ?_, ?_⟩
    all_goals
      simp only [simulate_ability_snd, recomputeStacks_chakramStacks, recomputeStacks_time,
        recomputeStacks_activeChakrams, hset4, htime4]
    · exact Int.natCast_nonneg _
    · have hcast : (((s.activeChakrams.filter
            (fun t => (use_ammo (ensureAmmo s) 10).time < t)).card : ℤ)) ≤ 1 := by
        exact_mod_cast hcard
      linarith
    · intro t ht
      have := hwin t ht
      linarith
    · exact hsp

theorem abilityBlock_inv (s : SimState) (h : ChakraInv s)
    (hc : 3 ≤ s.time - s.abilityCooldown) : ChakraInv (abilityBlock s).2 := by
  obtain ⟨hok, hbound, hspace⟩ := simulate_ability_inv s h hc
  exact ⟨hok, hbound, hspace⟩

theorem loopIter_inv (oracle : ℕ → ℚ) (s : SimState) (h : ChakraInv s) :
    obsOk (loopIter oracle s).2.2 ∧ ChakraInv (loopIter oracle s).2.1 := by
  have h1 : ChakraInv (ensureAmmo s) := ensureAmmo_inv s h
  have h2 : ChakraInv (afterAttack oracle (ensureAmmo s)) := afterAttack_inv oracle _ h1
  rw [loopIter_eq]
  by_cases hf : abilityFires (afterAttack oracle (ensureAmmo s))
  · rw [if_pos hf]
    have h3 := abilityBlock_inv _ h2 hf.1
    exact ⟨⟨h1.1, h2.1, h3.1⟩, h3⟩
  · rw [if_neg hf]
    exact ⟨⟨h1.1, h2.1, h2.1⟩, h2⟩

theorem dpsLoop_inv (oracle : ℕ → ℚ) (duration : ℚ) :
    ∀ (fuel : ℕ) (s : SimState) (total : ℚ), ChakraInv s →
      (∀ ob ∈ (dpsLoop oracle duration fuel s total).2.2, obsOk ob)
        ∧ ChakraInv (dpsLoop oracle duration fuel s total).2.1 := by
  intro fuel
  induction fuel with
  | zero =>
      intro s total h
      exact ⟨fun ob hob => absurd hob (List.not_mem_nil ob), h⟩
  | succ n ih =>
      intro s total h
      by_cases hlt : s.time < duration
      · have htr : (dpsLoop oracle duration (n + 1) s total).2.2
            = (loopIter oracle s).2.2
                :: (dpsLoop oracle duration n (loopIter oracle s).2.1
                    (total + (loopIter oracle s).1)).2.2 := by
          simp [dpsLoop, if_pos hlt]
        have hst : (dpsLoop oracle duration (n + 1) s total).2.1
            = (dpsLoop oracle duration n (loopIter oracle s).2.1
                (total + (loopIter oracle s).1)).2.1 := by
          simp [dpsLoop, if_pos hlt]
        obtain ⟨hobs, hinv⟩ := loopIter_inv oracle s h
        obtain ⟨ihobs, ihinv⟩ := ih (loopIter oracle s).2.1 (total + (loopIter oracle s).1) hinv
        refine ⟨?_, ?_⟩
        · rw [htr]
          intro ob hob
          rcases List.mem_cons.mp hob with rfl | hm
          · exact hobs
          · exact ihobs ob hm
        · rw [hst]
          exact ihinv
      · have hstop : dpsLoop oracle duration (n + 1) s total = (total, s, []) := by
          simp [dpsLoop, if_neg hlt]
        rw [hstop]
        exact ⟨fun ob hob => absurd hob (List.not_mem_nil ob), h⟩

theorem initState_inv (items : List Item) (ea eh : ℚ) : ChakraInv (initState items ea eh) := by
  refine ⟨⟨le_refl 0, ?_⟩, fun t ht => absurd ht (Finset.not_mem_empty t),
    fun t1 ht1 => absurd ht1 (Finset.not_mem_empty t1)⟩
  show (0:ℤ) ≤ 20
  norm_num

/-- Claim C5: at every observed point of a simulation run from the fresh
state, the chakram stack counter satisfies `0 ≤ chakram_stacks ≤ 20` —
every observation of every loop iteration, the final state (including the
trailing forced rotation), and each individual operation preserves the
bound under the run's inductive invariant (for the ability, under the
cast-permission condition the driver checks). -/
theorem chakram_stacks_bounded (oracle : ℕ → ℚ) (duration : ℚ) (fuel : ℕ)
    (items : List Item) (ea eh : ℚ) :
    (∀ ob ∈ (calculate_dps oracle duration fuel (initState items ea eh)).2.2, obsOk ob)
      ∧ stacksOk (calculate_dps oracle duration fuel (initState items ea eh)).2.1
      ∧ (∀ s : SimState, ChakraInv s → ChakraInv (rotate_weapon s))
      ∧ (∀ s : SimState, ChakraInv s → ChakraInv (simulate_attack oracle s).2)
      ∧ (∀ s : SimState, ChakraInv s → 3 ≤ s.time - s.abilityCooldown →
          stacksOk (simulate_ability s).2 ∧ ChakraInv (abilityBlock s).2) := by
  obtain ⟨hobs, hfin⟩ :=
    dpsLoop_inv oracle duration fuel (initState items ea eh) 0 (initState_inv items ea eh)
  refine ⟨hobs, ?_, rotate_weapon_inv, fun s hs => simulate_attack_inv oracle s hs,
    fun s hs hcnd => ⟨(simulate_ability_inv s hs hcnd).1, abilityBlock_inv s hs hcnd⟩⟩
  rw [calculate_dps_state]
  split
  · exact (rotate_weapon_inv _ hfin).1
  · exact hfin.1

/-- Witness for `chakram_stacks_bounded`: the rotation-preservation
conjunct applied at the fresh state. -/
theorem chakram_stacks_bounded_witness :
    0 ≤ (rotate_weapon (initState [] 200 3000)).chakramStacks
      ∧ (rotate_weapon (initState [] 200 3000)).chakramStacks ≤ 20 :=
  ((chakram_stacks_bounded oracleOne 900 0 [] 200 3000).2.2.1 (initState [] 200 3000)
    (initState_inv [] 200 3000)).1

end Aphelios
